import Mathlib

/-
Verification development for gosv, a small Go process supervisor.

The Go sources are shallowly embedded as executable Lean definitions:

* `process.go`   — the `Process` record, `Process.Start`/`Signal`/`Wait`;
* `supervisor.go` — `reapZombies` (per-child update `reapUpdate`),
  `handleRestarts` (per-entry step `handleRestartsStep`),
  `gracefulShutdown` (fueled tick loop over an environment describing
  when children die);
* `proc.go`      — `ReadProcInfo` with `readStatus`/`readFDs`/`readMaps`
  over an abstract view of a `/proc/<pid>` directory;
* `cgroup.go`    — the `Cgroup` handle and its `Destroy` action;
* `main.go`      — `loadConfig`'s translation of a `ServiceConfig` into a
  `Process`.

Machine integers (Go `int`, `int64`, `time.Duration` in nanoseconds) are
modelled as `Int`; the quantities involved (pids, restart counters,
durations up to tens of seconds) are far from the `int64` range, so
wrap-around is irrelevant and not modelled.  The `float64` fields
(`BackoffFactor`) and the delay computation
`time.Duration(float64(delay) * math.Pow(factor, n))` are modelled over
`ℚ` (the exact-real idealisation of the float computation) followed by
truncation toward zero, which is what the Go float-to-integer conversion
performs; for the concrete parameters appearing in the claims
(factor 2.0, base 1s, exponents ≤ 4) the float computation is exact, so
the ℚ model coincides with the code.
-/

namespace Gosv

/-- Process lifecycle states, from `process.go`
(`StateStopped | StateStarting | StateRunning | StateFailed`). -/
inductive ProcessState where
  | stopped
  | starting
  | running
  | failed
deriving DecidableEq, Repr

/-- Cgroup handle, from `cgroup.go`: a `name` and the directory `path`
`<base>/<name>` created by `NewCgroup`. -/
structure Cgroup where
  name : String
  path : String
deriving DecidableEq, Repr

/-- Supervised process record, from `process.go` (`type Process struct`).
Durations (`RestartDelay`, `lastUptime`) and instants (`startTime`) are in
nanoseconds, matching Go's `time.Duration`/`time.Time` resolution; the
`float64` field `BackoffFactor` is modelled as `ℚ`. -/
structure Process where
  name : String
  command : String
  args : List String
  pid : Int
  state : ProcessState
  exitCode : Int
  startTime : Int
  lastUptime : Int
  restarts : Int
  maxRestarts : Int
  restartDelay : Int
  backoffFactor : ℚ
  memoryLimit : Int
  cpuQuota : Int
  cgroup : Option Cgroup
deriving DecidableEq, Repr

/-- Wait-status mask `0x7F` used by Go's `syscall.WaitStatus` decoders on
Linux. -/
def wstatusMask : Nat := 0x7f

/-- Go `syscall.WaitStatus.Exited`: the low seven status bits are zero. -/
def wExited (w : Nat) : Bool := w &&& wstatusMask == 0

/-- Go `syscall.WaitStatus.Signaled`: the low seven bits are neither the
stopped marker `0x7F` nor zero. -/
def wSignaled (w : Nat) : Bool :=
  w &&& wstatusMask != 0x7f && w &&& wstatusMask != 0

/-- Go `syscall.WaitStatus.ExitStatus`: bits 8..15 when the child exited
normally, `-1` otherwise. -/
def wExitStatus (w : Nat) : Int :=
  if wExited w then ((w >>> 8) &&& 0xff : Nat) else -1

/-- Go `syscall.WaitStatus.Signal`: the low seven bits when the child was
killed by a signal, `-1` otherwise. -/
def wSignal (w : Nat) : Int :=
  if wSignaled w then (w &&& wstatusMask : Nat) else -1

/-- Per-child update performed by `reapZombies` in `supervisor.go` on the
entry matching a reaped pid: set `state = StateStopped`; set `exitCode`
from the wait status (raw exit status if `Exited`, `128 + signal` if
`Signaled`); record `lastUptime = time.Since(startTime)`; zero the pid. -/
def reapUpdate (p : Process) (w : Nat) (now : Int) : Process :=
  let p := { p with state := ProcessState.stopped }
  let p :=
    if wExited w then { p with exitCode := wExitStatus w }
    else if wSignaled w then { p with exitCode := 128 + wSignal w }
    else p
  let p := { p with lastUptime := now - p.startTime }
  { p with pid := 0 }

/-- One reaped pid applied to the process table: `reapZombies` scans the
table and updates the first entry whose `pid` matches; an unmatched pid is
logged and ignored. -/
def reapOne : List Process → Int → Nat → Int → List Process
  | [], _, _, _ => []
  | p :: rest, pid, w, now =>
    if p.pid = pid then reapUpdate p w now :: rest
    else p :: reapOne rest pid w now

example :
    (reapUpdate
      { name := "web", command := "/bin/sh", args := [], pid := 1234,
        state := ProcessState.running, exitCode := 0, startTime := 100,
        lastUptime := 0, restarts := 0, maxRestarts := 3,
        restartDelay := 1000000000, backoffFactor := 2, memoryLimit := 0,
        cpuQuota := 0, cgroup := none } 15 2100).exitCode = 143 := by
  decide

example :
    (reapUpdate
      { name := "web", command := "/bin/sh", args := [], pid := 1234,
        state := ProcessState.running, exitCode := 0, startTime := 100,
        lastUptime := 0, restarts := 0, maxRestarts := 3,
        restartDelay := 1000000000, backoffFactor := 2, memoryLimit := 0,
        cpuQuota := 0, cgroup := none } (7 <<< 8) 2100).exitCode = 7 := by
  decide

/-- Stability threshold: `const StableAfter = 60 * time.Second` in
`supervisor.go`, in nanoseconds. -/
def StableAfter : Int := 60 * 1000000000

/-- Truncation of a rational toward zero, the rounding Go performs when
converting the `float64` delay product to `time.Duration`. -/
def truncQ (q : ℚ) : Int := if q < 0 then ⌈q⌉ else ⌊q⌋

/-- Restart delay computed by `handleRestarts` after the counter has been
incremented:
`time.Duration(float64(RestartDelay) * math.Pow(BackoffFactor, float64(restarts-1)))`,
over the exact-real (ℚ) semantics of the float computation. -/
def backoffDelay (restartDelay : Int) (factor : ℚ) (restarts : Int) : Int :=
  truncQ ((restartDelay : ℚ) * factor ^ (restarts - 1).toNat)

/-- Log lines `handleRestarts` can print for one entry: the stability-reset
notice and the `restarting %s in %v` notice.  The function prints nothing
else; in particular it has no failure notice. -/
inductive LogEvent where
  | stableReset
  | restartScheduled (delay : Int)
deriving DecidableEq, Repr

/-- Result of one `handleRestarts` iteration for one entry: the updated
record, the delay of the one-shot restart timer scheduled for it (if any),
and the log lines printed. -/
structure RestartDecision where
  proc : Process
  scheduledDelay : Option Int
  logs : List LogEvent
deriving DecidableEq, Repr

/-- Stability reset from `handleRestarts`: if the entry ran longer than
`StableAfter` before its last exit and has a positive restart counter, the
counter is reset to zero. -/
def stabilityReset (p : Process) : Process :=
  if StableAfter < p.lastUptime ∧ 0 < p.restarts then { p with restarts := 0 }
  else p

/-- One iteration of the `handleRestarts` loop body for one entry,
translated from `supervisor.go`: first the stability reset, then
`shouldRestart := state == StateStopped && restarts < MaxRestarts`; when
restarting, increment `restarts`, compute the backoff delay, print the
scheduling notice and start the one-shot timer goroutine.  Otherwise the
entry is left untouched — there is no `Failed` transition and no log line
on the exhausted path. -/
def handleRestartsStep (p : Process) : RestartDecision :=
  let resetLogs : List LogEvent :=
    if StableAfter < p.lastUptime ∧ 0 < p.restarts then [LogEvent.stableReset]
    else []
  let p := stabilityReset p
  if p.state = ProcessState.stopped ∧ p.restarts < p.maxRestarts then
    let p := { p with restarts := p.restarts + 1 }
    let d := backoffDelay p.restartDelay p.backoffFactor p.restarts
    { proc := p, scheduledDelay := some d,
      logs := resetLogs ++ [LogEvent.restartScheduled d] }
  else
    { proc := p, scheduledDelay := none, logs := resetLogs }

/-- The `handleRestarts` loop over the whole table (map iteration order is
immaterial: each iteration reads and writes a single entry). -/
def handleRestarts (procs : List Process) : List RestartDecision :=
  procs.map handleRestartsStep

/-- Truncation toward zero of an integer is that integer. -/
theorem truncQ_intCast (n : ℤ) : truncQ (n : ℚ) = n := by
  unfold truncQ
  split
  · exact Int.ceil_intCast n
  · exact Int.floor_intCast n

/-- Evaluation helper: a backoff delay whose exact rational value is the
integer `m` truncates to `m`. -/
theorem backoffDelay_eval (base : ℤ) (f : ℚ) (r m : ℤ) (k : ℕ)
    (hk : (r - 1).toNat = k) (h : (base : ℚ) * f ^ k = (m : ℚ)) :
    backoffDelay base f r = m := by
  rw [backoffDelay, hk, h, truncQ_intCast]

example : backoffDelay 1000000000 2 1 = 1000000000 :=
  backoffDelay_eval _ _ _ _ 0 (by simp) (by norm_num)

example : backoffDelay 1000000000 2 5 = 16000000000 :=
  backoffDelay_eval _ _ _ _ 4 (by simp) (by norm_num)

example :
    handleRestartsStep
      { name := "flaky", command := "/bin/sh", args := [], pid := 0,
        state := ProcessState.stopped, exitCode := 1, startTime := 0,
        lastUptime := 100, restarts := 5, maxRestarts := 5,
        restartDelay := 1000000000, backoffFactor := 2, memoryLimit := 0,
        cpuQuota := 0, cgroup := none }
      = { proc :=
            { name := "flaky", command := "/bin/sh", args := [], pid := 0,
              state := ProcessState.stopped, exitCode := 1, startTime := 0,
              lastUptime := 100, restarts := 5, maxRestarts := 5,
              restartDelay := 1000000000, backoffFactor := 2,
              memoryLimit := 0, cpuQuota := 0, cgroup := none },
          scheduledDelay := none, logs := [] } := by
  decide

/-- Observable system calls and filesystem mutations issued by the
supervisor: `kill(target, sig)` and directory removal (the effect of
`os.Remove` in `Cgroup.Destroy`). -/
inductive SysAction where
  | kill (target : Int) (sig : Int)
  | removeDir (path : String)
deriving DecidableEq, Repr

/-- Go `Process.Signal` from `process.go`: returns an error (and performs
no system call) when `pid == 0`; otherwise invokes
`syscall.Kill(-p.pid, sig)` — the negative target addressing the whole
process group. -/
def Process.Signal (p : Process) (sig : Int) : Option SysAction :=
  if p.pid = 0 then none
  else some (SysAction.kill (-p.pid) sig)

/-- Liveness probe performed in the ticker branch of `gracefulShutdown`:
`syscall.Kill(p.pid, 0)` — note the bare (positive) pid. -/
def livenessProbe (pid : Int) : SysAction := SysAction.kill pid 0

/-- Cgroup teardown, `Cgroup.Destroy` in `cgroup.go`: remove the handle's
directory (`os.Remove(c.path)`). -/
def Cgroup.Destroy (c : Cgroup) : SysAction := SysAction.removeDir c.path

/-- Environment driving a `gracefulShutdown` run: which `(pid, waitStatus)`
pairs the non-blocking `Wait4` loop drains at each 100-ms tick, whether
`kill(pid, 0)` still finds the process at each tick, and the wall clock at
each tick. -/
structure ShutdownEnv where
  reaps : Nat → List (Int × Nat)
  alive : Nat → Int → Bool
  now : Nat → Int

/-- One invocation of `reapZombies` at tick `t`: drain the environment's
exited children in order, updating the matching table entries. -/
def reapZombiesAt (env : ShutdownEnv) (t : Nat) (procs : List Process) :
    List Process :=
  (env.reaps t).foldl (fun ps pw => reapOne ps pw.1 pw.2 (env.now t)) procs

/-- Result of a `gracefulShutdown` run: the final process table, the system
calls issued (in order), and whether the run ended through the
`all processes terminated gracefully` branch rather than the 10-second
deadline. -/
structure ShutdownResult where
  procs : List Process
  actions : List SysAction
  graceful : Bool
deriving Repr

/-- The `select` loop of `gracefulShutdown` after the SIGTERM phase,
translated from `supervisor.go` with the 10-second deadline rendered as
fuel (100 ticks of the 100-ms ticker).  Each tick runs `reapZombies`, then
probes every entry with a non-zero pid via `kill(pid, 0)` and returns when
none is alive; at the deadline every entry still holding a non-zero pid is
sent SIGKILL via `Process.Signal` and `reapZombies` runs one final time.
No branch touches any cgroup. -/
def shutdownTicks (env : ShutdownEnv) :
    Nat → Nat → List Process → List SysAction → ShutdownResult
  | 0, t, procs, acts =>
    let kills := procs.filterMap fun p =>
      if p.pid ≠ 0 then p.Signal 9 else none
    let procs := reapZombiesAt env t procs
    { procs := procs, actions := acts ++ kills, graceful := false }
  | fuel + 1, t, procs, acts =>
    let procs := reapZombiesAt env t procs
    let probes := procs.filterMap fun p =>
      if p.pid ≠ 0 then some (livenessProbe p.pid) else none
    let allDead := procs.all fun p => p.pid == 0 || !(env.alive t p.pid)
    let acts := acts ++ probes
    if allDead then { procs := procs, actions := acts, graceful := true }
    else shutdownTicks env fuel (t + 1) procs acts

/-- Go `gracefulShutdown` from `supervisor.go`: snapshot the table, send
SIGTERM (signal 15) to the process group of every `Running` entry, then
enter the ticker/deadline loop. -/
def gracefulShutdown (env : ShutdownEnv) (procs : List Process) :
    ShutdownResult :=
  let terms := procs.filterMap fun p =>
    if p.state = ProcessState.running then p.Signal 15 else none
  shutdownTicks env 100 0 procs terms

/-- Outcome of `cmd.Wait()` as seen by `Process.Wait`: a nil error (normal
exit, code 0), an `*exec.ExitError` carrying `ExitCode()`, or some other
error. -/
inductive WaitOutcome where
  | normal
  | exitError (code : Int)
  | otherError
deriving DecidableEq, Repr

/-- Go `Process.Wait` from `process.go`: if the command was never started
(`cmd == nil`) it returns an error and mutates nothing; otherwise it sets
`state = StateStopped`, then records `exitCode` on the nil-error and
`ExitError` paths.  It never touches `pid`.  The second component is the
integer `Wait` returns (absent on the error paths). -/
def Process.Wait (p : Process) (started : Bool) (out : WaitOutcome) :
    Process × Option Int :=
  if !started then (p, none)
  else
    let p := { p with state := ProcessState.stopped }
    match out with
    | WaitOutcome.normal => ({ p with exitCode := 0 }, some 0)
    | WaitOutcome.exitError c => ({ p with exitCode := c }, some c)
    | WaitOutcome.otherError => (p, none)

/-- Engine phases relevant to restart-timer cancellation. -/
inductive Phase where
  | running
  | shuttingDown
deriving DecidableEq, Repr

/-- Abstract state of the supervisor's restart timers: the engine phase,
the entries with a pending one-shot restart timer (the
`go func(proc, d) { time.Sleep(d); proc.Start() }` goroutines launched by
`handleRestarts`), and the entries spawned by a timer that fired at or
after the instant shutdown began. -/
structure TimerState where
  phase : Phase
  pending : List String
  spawnsDuringShutdown : List String
deriving DecidableEq, Repr

/-- Events of the timer model: `handleRestarts` scheduling a restart timer
(only reachable while the loop is in the Running phase, since reap
notifications are ignored once `Run` has entered `gracefulShutdown`);
the SIGTERM/SIGINT branch of `Run` entering shutdown; and a pending timer
goroutine waking up and calling `proc.Start()`. -/
inductive TimerEvent where
  | schedule (n : String)
  | enterShutdown
  | fire (n : String)
deriving DecidableEq, Repr

/-- Interleaving semantics of the restart timers against shutdown,
translated from `supervisor.go`: scheduling adds a pending timer;
entering shutdown flips the phase and — as in the source, which holds no
handle to the sleeping goroutines — leaves `pending` untouched; a pending
timer that fires always calls `Start` (the goroutine body consults no
phase flag), and the spawn is recorded as a during-shutdown spawn when the
phase is already `shuttingDown`. -/
def timerStep (s : TimerState) : TimerEvent → Option TimerState
  | TimerEvent.schedule n =>
    if s.phase = Phase.running then some { s with pending := n :: s.pending }
    else none
  | TimerEvent.enterShutdown =>
    if s.phase = Phase.running then
      some { s with phase := Phase.shuttingDown }
    else none
  | TimerEvent.fire n =>
    if n ∈ s.pending then
      some { s with
        pending := s.pending.erase n,
        spawnsDuringShutdown :=
          if s.phase = Phase.shuttingDown then n :: s.spawnsDuringShutdown
          else s.spawnsDuringShutdown }
    else none

/-- Run of the timer model over a list of events; `none` when an event is
not enabled. -/
def timerRun (s : TimerState) : List TimerEvent → Option TimerState
  | [] => some s
  | e :: es =>
    match timerStep s e with
    | some s => timerRun s es
    | none => none

/-- Go `strconv.Atoi` with the error discarded, as the call sites in
`proc.go` do (`p.PPid, _ = strconv.Atoi(val)`): an optional sign followed
by digits, anything else yielding 0. -/
def goAtoiOpt (s : String) : Option Int :=
  let t := if s.startsWith "+" then s.drop 1 else s
  if s.startsWith "+" ∧ (t.startsWith "+" ∨ t.startsWith "-") then none
  else t.toInt?

/-- Variant of `goAtoiOpt` returning 0 on parse failure, matching the
discarded-error call sites. -/
def goAtoi (s : String) : Int := (goAtoiOpt s).getD 0

/-- Value of one hexadecimal digit. -/
def hexDigit (c : Char) : Option Nat :=
  if c.isDigit then some (c.toNat - 48)
  else if 97 ≤ c.toNat ∧ c.toNat ≤ 102 then some (c.toNat - 87)
  else if 65 ≤ c.toNat ∧ c.toNat ≤ 70 then some (c.toNat - 55)
  else none

/-- Unsigned hexadecimal value of a string, `none` when empty or when any
character is not a hex digit. -/
def hexVal (s : String) : Option Nat :=
  if s.isEmpty then none
  else s.foldl (fun acc c =>
    match acc, hexDigit c with
    | some v, some d => some (v * 16 + d)
    | _, _ => none) (some 0)

/-- Go `strconv.ParseUint(s, 16, 64)` with the error discarded, as in
`readMaps`: syntax errors yield 0, out-of-range values saturate at the
maximum `uint64` (which Go returns alongside the range error). -/
def goParseHex64 (s : String) : Nat :=
  match hexVal s with
  | none => 0
  | some v => min v (2 ^ 64 - 1)

/-- Go `strings.Fields`: whitespace-separated tokens. -/
def goFields (s : String) : List String :=
  (s.split Char.isWhitespace).filter (· ≠ "")

/-- Go `strings.SplitN(line, sep, 2)` restricted to the two-part shape the
status parser needs: the text before the first `":"` and everything after
it, or `none` when the line has no `":"` (the parser skips such lines). -/
def splitN2Colon (line : String) : Option (String × String) :=
  match line.splitOn ":" with
  | [] => none
  | [_] => none
  | k :: rest => some (k, String.intercalate ":" rest)

/-- One open file descriptor, `FDInfo` in `proc.go` (`Mode` is declared but
never assigned by the source). -/
structure FDInfo where
  fd : Int
  path : String
  mode : String := ""
deriving DecidableEq, Repr

/-- One line of `/proc/<pid>/maps`, `MemoryMap` in `proc.go`. -/
structure MemoryMap where
  startAddr : Nat
  endAddr : Nat
  perms : String
  pathname : String
deriving DecidableEq, Repr

/-- Process introspection record, `ProcInfo` in `proc.go`; the defaults are
Go's zero values, in place before `readStatus` fills the record in. -/
structure ProcInfo where
  pid : Int
  name : String := ""
  state : String := ""
  ppid : Int := 0
  threads : Int := 0
  vmRSS : Int := 0
  vmSize : Int := 0
  fds : List FDInfo := []
  memoryMaps : List MemoryMap := []
deriving DecidableEq, Repr

/-- Effect of one `/proc/<pid>/status` line on the record, from the
`switch key` in `readStatus`: split at the first colon, trim both sides,
and assign the recognised keys; unknown keys and colon-free lines are
ignored; `VmRSS`/`VmSize` take the first whitespace-separated field of the
value. -/
def readStatusLine (p : ProcInfo) (line : String) : ProcInfo :=
  match splitN2Colon line with
  | none => p
  | some kv =>
    let key := kv.1.trim
    let val := kv.2.trim
    if key = "Name" then { p with name := val }
    else if key = "State" then { p with state := val }
    else if key = "PPid" then { p with ppid := goAtoi val }
    else if key = "Threads" then { p with threads := goAtoi val }
    else if key = "VmRSS" then
      match goFields val with
      | [] => p
      | f :: _ => { p with vmRSS := goAtoi f }
    else if key = "VmSize" then
      match goFields val with
      | [] => p
      | f :: _ => { p with vmSize := goAtoi f }
    else p

/-- Go `readStatus` from `proc.go` applied to the file contents: fold the
line parser over the lines of `/proc/<pid>/status`. -/
def readStatus (p : ProcInfo) (data : String) : ProcInfo :=
  (data.splitOn "\n").foldl readStatusLine p

/-- Go `readFDs` from `proc.go` over an abstract view of the
`/proc/<pid>/fd` directory: `none` models a `ReadDir` error (the function
returns an empty list); each entry is its name together with the result of
`Readlink` (`none` models a readlink error, skipping the entry); names
that are not integers are skipped. -/
def readFDs (entries : Option (List (String × Option String))) :
    List FDInfo :=
  match entries with
  | none => []
  | some es => es.filterMap fun e =>
    match goAtoiOpt e.1 with
    | none => none
    | some fd =>
      match e.2 with
      | none => none
      | some target => some { fd := fd, path := target }

/-- Go `readMaps` from `proc.go` applied to the file contents: skip empty
lines and lines with fewer than five fields; the address field must split
at `"-"` into exactly two hex numbers; the pathname is the sixth field
when present and empty otherwise. -/
def readMapsLines (data : String) : List MemoryMap :=
  (data.splitOn "\n").filterMap fun line =>
    if line = "" then none
    else
      match goFields line with
      | f0 :: f1 :: _ :: _ :: _ :: rest =>
        match f0.splitOn "-" with
        | [a, b] =>
          some { startAddr := goParseHex64 a, endAddr := goParseHex64 b,
                 perms := f1,
                 pathname := (rest.head?).getD "" }
        | _ => none
      | _ => none

/-- Go `readMaps` including the `ReadFile` failure path, which returns an
empty list. -/
def readMaps (data : Option String) : List MemoryMap :=
  match data with
  | none => []
  | some d => readMapsLines d

/-- Abstract view of the `/proc/<pid>` directory consumed by
`ReadProcInfo`: whether the numeric directory exists (the `os.Stat`
check), and the readable contents of `status`, the `fd` directory, and
`maps` (`none` modelling the respective read failing). -/
structure ProcDir where
  present : Bool
  status : Option String
  fdEntries : Option (List (String × Option String))
  maps : Option String

/-- Error kinds of `ReadProcInfo`: the `process %d does not exist` error
when the numeric directory is missing, and the propagated `readStatus`
error when `/proc/<pid>/status` cannot be read. -/
inductive ProcError where
  | notFound
  | statusUnreadable
deriving DecidableEq, Repr

/-- Go `ReadProcInfo` from `proc.go`: fail with the not-found error when
the numeric directory does not exist; fail by propagating the `readStatus`
error when the status file cannot be read; otherwise build the record,
with fd-directory and maps failures degrading to empty lists through
`readFDs`/`readMaps`. -/
def ReadProcInfo (pid : Int) (d : ProcDir) : Except ProcError ProcInfo :=
  if !d.present then Except.error ProcError.notFound
  else
    match d.status with
    | none => Except.error ProcError.statusUnreadable
    | some data =>
      let info := readStatus { pid := pid } data
      let info := { info with fds := readFDs d.fdEntries }
      let info := { info with memoryMaps := readMaps d.maps }
      Except.ok info

/-- One service stanza of the JSON configuration file, `ServiceConfig` in
`main.go`; these six fields are the whole configuration surface of a
service — there is no field for the restart delay or the backoff factor. -/
structure ServiceConfig where
  name : String
  command : String
  args : List String
  maxRestarts : Int
  memoryMB : Int
  cpuPercent : Int
deriving DecidableEq, Repr

/-- Translation of one configuration stanza into a `Process`, from
`loadConfig` in `main.go`: `RestartDelay` is hard-wired to `time.Second`
(10⁹ ns) and `BackoffFactor` to `2.0`; `MemoryLimit` is the megabyte count
scaled to bytes; a zero `MaxRestarts` is replaced by the default 3; the
remaining runtime fields get Go zero values. -/
def processOfService (svc : ServiceConfig) : Process :=
  let p : Process :=
    { name := svc.name, command := svc.command, args := svc.args,
      pid := 0, state := ProcessState.stopped, exitCode := 0,
      startTime := 0, lastUptime := 0, restarts := 0,
      maxRestarts := svc.maxRestarts,
      restartDelay := 1000000000,
      backoffFactor := 2,
      memoryLimit := svc.memoryMB * 1024 * 1024,
      cpuQuota := svc.cpuPercent,
      cgroup := none }
  if p.maxRestarts = 0 then { p with maxRestarts := 3 } else p

/-- Go `loadConfig` from `main.go`, after JSON decoding: register one
`Process` per configured service. -/
def loadConfig (services : List ServiceConfig) : List Process :=
  services.map processOfService

/-- Sample supervised entry used to instantiate theorems on concrete
inputs. -/
def pWeb : Process :=
  { name := "web", command := "/bin/sh", args := ["-c", "sleep 30"],
    pid := 1234, state := ProcessState.running, exitCode := 0,
    startTime := 100, lastUptime := 0, restarts := 0, maxRestarts := 3,
    restartDelay := 1000000000, backoffFactor := 2, memoryLimit := 0,
    cpuQuota := 0, cgroup := some { name := "web", path := "gosv/web" } }

/-- A wait status whose low bits are zero cannot also satisfy the
signalled predicate. -/
theorem wExited_not_signaled {w : Nat} (h : wExited w = true) :
    wSignaled w = false := by
  simp only [wExited, Nat.beq_eq_true_eq] at h
  simp [wSignaled, h]

/-- Claim C3: for every reaped child matched to a supervised entry, the
reaper sets the entry's state to Stopped, records
`last_uptime = now − start_time`, sets `last_exit_code` to the raw exit
code on a normal exit and to `128 + signal` on a signal death, and clears
the pid to 0. -/
theorem reapUpdate_marks_exit (p : Process) (w : Nat) (now : Int) :
    (reapUpdate p w now).state = ProcessState.stopped ∧
    (reapUpdate p w now).lastUptime = now - p.startTime ∧
    (reapUpdate p w now).pid = 0 ∧
    (wExited w = true → (reapUpdate p w now).exitCode = wExitStatus w) ∧
    (wSignaled w = true →
      (reapUpdate p w now).exitCode = 128 + wSignal w) := by
  by_cases hE : wExited w = true
  · have hS := wExited_not_signaled hE
    simp [reapUpdate, hE, hS]
  · have hE' : wExited w = false := by simpa using hE
    by_cases hS : wSignaled w = true
    · simp [reapUpdate, hE', hS]
    · have hS' : wSignaled w = false := by simpa using hS
      simp [reapUpdate, hE', hS']

/-- Witness for C3 at a concrete input: the sample entry reaped with wait
status 15 (killed by SIGTERM) ends Stopped with pid 0, uptime
`2100 − 100`, and exit code `128 + 15 = 143`. -/
theorem reapUpdate_marks_exit_witness :
    (reapUpdate pWeb 15 2100).state = ProcessState.stopped ∧
    (reapUpdate pWeb 15 2100).lastUptime = 2000 ∧
    (reapUpdate pWeb 15 2100).pid = 0 ∧
    (reapUpdate pWeb 15 2100).exitCode = 143 := by
  have h := reapUpdate_marks_exit pWeb 15 2100
  exact ⟨h.1, h.2.1, h.2.2.1, by rw [h.2.2.2.2 (by decide)]; decide⟩

/-- Claim C9: every entry built from a configuration stanza has
`base_restart_delay` fixed at exactly one second (10⁹ ns) and
`backoff_factor` fixed at exactly 2.0 whatever the stanza contains (the
format has no field for either), while `max_restarts = 0` is replaced by
the default 3. -/
theorem processOfService_policy (svc : ServiceConfig) :
    (processOfService svc).restartDelay = 1000000000 ∧
    (processOfService svc).backoffFactor = 2 ∧
    (processOfService svc).maxRestarts =
      (if svc.maxRestarts = 0 then 3 else svc.maxRestarts) := by
  by_cases h : svc.maxRestarts = 0 <;> simp [processOfService, h]

/-- Claim C10: the public `Wait` operation sets the state to Stopped and
records the exit code, but leaves `pid` unchanged; only the reaper path
zeroes `pid`.  Hence after `Wait` on an entry with a live pid the
`Stopped ⇒ pid = 0` invariant fails for that entry. -/
theorem wait_leaves_pid (p : Process) (out : WaitOutcome)
    (hpid : p.pid ≠ 0) :
    ((p.Wait true out).1.pid = p.pid) ∧
    ((p.Wait true out).1.state = ProcessState.stopped) ∧
    ((p.Wait true out).1.exitCode =
      (match out with
       | WaitOutcome.normal => 0
       | WaitOutcome.exitError c => c
       | WaitOutcome.otherError => p.exitCode)) ∧
    ¬((p.Wait true out).1.state = ProcessState.stopped →
        (p.Wait true out).1.pid = 0) ∧
    (∀ (w : Nat) (now : Int), (reapUpdate p w now).pid = 0) := by
  have hfields :
      ((p.Wait true out).1.pid = p.pid) ∧
      ((p.Wait true out).1.state = ProcessState.stopped) ∧
      ((p.Wait true out).1.exitCode =
        (match out with
         | WaitOutcome.normal => 0
         | WaitOutcome.exitError c => c
         | WaitOutcome.otherError => p.exitCode)) := by
    cases out <;> simp [Process.Wait]
  refine ⟨hfields.1, hfields.2.1, hfields.2.2, ?_, ?_⟩
  · intro himp
    exact hpid (hfields.1 ▸ himp hfields.2.1)
  · intro w now
    simp [reapUpdate]

/-- Witness for C10 at a concrete input: waiting on the sample running
entry (pid 1234) after an exit-code-1 death leaves the pid at 1234 while
the state is Stopped. -/
theorem wait_leaves_pid_witness :
    ((pWeb.Wait true (WaitOutcome.exitError 1)).1.pid = 1234) ∧
    ((pWeb.Wait true (WaitOutcome.exitError 1)).1.state =
      ProcessState.stopped) := by
  have h := wait_leaves_pid pWeb (WaitOutcome.exitError 1) (by decide)
  exact ⟨h.1, h.2.1⟩

/-- Field bookkeeping for `reapUpdate`: besides the four mutated fields it
leaves the entry alone; in particular the restart policy fields and the
cgroup handle are untouched. -/
theorem reapUpdate_fields (p : Process) (w : Nat) (now : Int) :
    (reapUpdate p w now).state = ProcessState.stopped ∧
    (reapUpdate p w now).pid = 0 ∧
    (reapUpdate p w now).lastUptime = now - p.startTime ∧
    (reapUpdate p w now).restarts = p.restarts ∧
    (reapUpdate p w now).maxRestarts = p.maxRestarts ∧
    (reapUpdate p w now).startTime = p.startTime ∧
    (reapUpdate p w now).cgroup = p.cgroup := by
  by_cases hE : wExited w = true
  · simp [reapUpdate, hE]
  · have hE' : wExited w = false := by simpa using hE
    by_cases hS : wSignaled w = true
    · simp [reapUpdate, hE', hS]
    · have hS' : wSignaled w = false := by simpa using hS
      simp [reapUpdate, hE', hS']

/-- Entry whose restart budget is exhausted: Stopped, with
`restarts = maxRestarts = 3` and a short last incarnation. -/
def pExhausted : Process :=
  { pWeb with state := ProcessState.stopped, pid := 0, restarts := 3,
              lastUptime := 5000000000 }

/-- Counterexample to claim C1: evaluating the planner on a Stopped entry
with `restarts = max_restarts = 3` leaves the entry in `Stopped` — not
`Failed` — and prints nothing, so no failure notice is emitted. -/
theorem handleRestarts_exhausted_counterexample :
    handleRestartsStep pExhausted =
      { proc := pExhausted, scheduledDelay := none, logs := [] } ∧
    (handleRestartsStep pExhausted).proc.state ≠ ProcessState.failed := by
  decide

/-- Claim C1 as amended: when the planner evaluates a Stopped entry whose
restart counter has reached `max_restarts` (and the stability reset does
not apply), it schedules no spawn — but it leaves the entry unchanged in
the `Stopped` state and emits no log line at all; there is no `Failed`
transition and no failure notice. -/
theorem handleRestartsStep_exhausted (p : Process)
    (hstate : p.state = ProcessState.stopped)
    (hbudget : p.maxRestarts ≤ p.restarts)
    (hstable : ¬(StableAfter < p.lastUptime ∧ 0 < p.restarts)) :
    handleRestartsStep p =
      { proc := p, scheduledDelay := none, logs := [] } := by
  have hlt : ¬(p.restarts < p.maxRestarts) := not_lt.mpr hbudget
  simp [handleRestartsStep, stabilityReset, hstable, hlt]

/-- Witness for the amended C1 at a concrete input. -/
theorem handleRestartsStep_exhausted_witness :
    handleRestartsStep pExhausted =
      { proc := pExhausted, scheduledDelay := none, logs := [] } :=
  handleRestartsStep_exhausted pExhausted (by decide) (by decide) (by decide)

/-- One crash-and-replan cycle: the entry's incarnation dies with wait
status `w` after running for `u` nanoseconds (the reaper effect), and the
planner then evaluates the entry.  Iterating this models a service whose
every incarnation runs for `u` before dying. -/
def crashCycle (u : Int) (w : Nat) (p : Process) : Process :=
  (handleRestartsStep (reapUpdate p w (p.startTime + u))).proc

/-- Planner behaviour on a stable Stopped entry: with a nonnegative
counter, an uptime above the stability threshold and a positive budget,
a restart is always scheduled and the counter ends at 1 (either it was 0
and is incremented, or it is reset to 0 first and then incremented) —
regardless of how large the counter was. -/
theorem stable_entry_restarts (p : Process)
    (hstate : p.state = ProcessState.stopped) (hnneg : 0 ≤ p.restarts)
    (hstable : StableAfter < p.lastUptime) (hmax : 1 ≤ p.maxRestarts) :
    (handleRestartsStep p).scheduledDelay.isSome = true ∧
    (handleRestartsStep p).proc.restarts = 1 ∧
    (handleRestartsStep p).proc.maxRestarts = p.maxRestarts := by
  rcases eq_or_lt_of_le hnneg with h0 | hpos
  · have hres : ¬(StableAfter < p.lastUptime ∧ 0 < p.restarts) := by
      intro hc
      rw [← h0] at hc
      exact lt_irrefl 0 hc.2
    have hlt : p.restarts < p.maxRestarts := by omega
    simp [handleRestartsStep, stabilityReset, hres, hstate, hlt]
    omega
  · have hc : StableAfter < p.lastUptime ∧ 0 < p.restarts := ⟨hstable, hpos⟩
    have hlt : (0 : Int) < p.maxRestarts := by omega
    simp [handleRestartsStep, stabilityReset, hc, hstate, hlt]

/-- The planner never changes an entry's `maxRestarts`. -/
theorem handleRestartsStep_maxRestarts (p : Process) :
    (handleRestartsStep p).proc.maxRestarts = p.maxRestarts := by
  by_cases h1 : StableAfter < p.lastUptime ∧ 0 < p.restarts <;>
    by_cases h2 : p.state = ProcessState.stopped <;>
      by_cases h3 : (0 : Int) < p.maxRestarts <;>
        by_cases h4 : p.restarts < p.maxRestarts <;>
          simp [handleRestartsStep, stabilityReset, h1, h2, h3, h4]

/-- Iterated stable crashes keep the counter nonnegative and the budget
unchanged. -/
theorem crashCycle_invariant (p : Process) (u : Int) (w : Nat)
    (hnneg : 0 ≤ p.restarts) (hstable : StableAfter < u)
    (hmax : 1 ≤ p.maxRestarts) (n : Nat) :
    0 ≤ ((crashCycle u w)^[n] p).restarts ∧
    ((crashCycle u w)^[n] p).maxRestarts = p.maxRestarts := by
  induction n with
  | zero => exact ⟨hnneg, rfl⟩
  | succ n ih =>
    rw [Function.iterate_succ_apply']
    set q := (crashCycle u w)^[n] p with hq
    have hf := reapUpdate_fields q w (q.startTime + u)
    have hstep := stable_entry_restarts (reapUpdate q w (q.startTime + u))
      hf.1 (hf.2.2.2.1 ▸ ih.1) (by rw [hf.2.2.1]; simpa using hstable)
      (by rw [hf.2.2.2.2.1, ih.2]; exact hmax)
    refine ⟨?_, ?_⟩
    · rw [crashCycle, hstep.2.1]
      omega
    · rw [crashCycle, hstep.2.2, hf.2.2.2.2.1, ih.2]

/-- Entry with a stable last incarnation but a zero restart budget. -/
def pStableZeroMax : Process :=
  { pWeb with state := ProcessState.stopped, pid := 0, restarts := 0,
              maxRestarts := 0, lastUptime := 61000000000 }

/-- Counterexample to claim C6: an entry whose last incarnation ran 61 s
(beyond the 60-second stability threshold) but whose `max_restarts` is 0
is not restarted at all — the planner schedules no spawn — so it cannot
be restarted "regardless of max_restarts". -/
theorem stability_reset_counterexample :
    StableAfter < pStableZeroMax.lastUptime ∧
    pStableZeroMax.state = ProcessState.stopped ∧
    (handleRestartsStep pStableZeroMax).scheduledDelay = none := by
  decide

/-- Claim C6 as amended: the counter is reset to 0 exactly when
`last_uptime` exceeds the 60-second threshold and `restarts > 0`; the
reset precedes the budget check, so a stable Stopped entry (nonnegative
counter, positive budget) is always rescheduled with its counter back at
1; iterating stable incarnations therefore restarts the entry
indefinitely provided `max_restarts ≥ 1` (for `max_restarts ≤ 0` no
restart is ever scheduled). -/
theorem stability_reset_fresh_incident :
    (∀ p : Process, (stabilityReset p).restarts =
      (if StableAfter < p.lastUptime ∧ 0 < p.restarts then 0
       else p.restarts)) ∧
    (∀ p : Process, p.state = ProcessState.stopped → 0 ≤ p.restarts →
      StableAfter < p.lastUptime → 1 ≤ p.maxRestarts →
      (handleRestartsStep p).scheduledDelay.isSome = true ∧
      (handleRestartsStep p).proc.restarts = 1) ∧
    (∀ (p : Process) (u : Int) (w : Nat) (n : Nat), 0 ≤ p.restarts →
      StableAfter < u → 1 ≤ p.maxRestarts →
      (handleRestartsStep (reapUpdate ((crashCycle u w)^[n] p) w
        (((crashCycle u w)^[n] p).startTime + u))).scheduledDelay.isSome
        = true) := by
  refine ⟨?_, ?_, ?_⟩
  · intro p
    by_cases h : StableAfter < p.lastUptime ∧ 0 < p.restarts <;>
      simp [stabilityReset, h]
  · intro p h1 h2 h3 h4
    exact ⟨(stable_entry_restarts p h1 h2 h3 h4).1,
           (stable_entry_restarts p h1 h2 h3 h4).2.1⟩
  · intro p u w n hnneg hstable hmax
    have hinv := crashCycle_invariant p u w hnneg hstable hmax n
    set q := (crashCycle u w)^[n] p with hq
    have hf := reapUpdate_fields q w (q.startTime + u)
    exact (stable_entry_restarts (reapUpdate q w (q.startTime + u))
      hf.1 (hf.2.2.2.1 ▸ hinv.1) (by rw [hf.2.2.1]; simpa using hstable)
      (by rw [hf.2.2.2.2.1, hinv.2]; exact hmax)).1

/-- Witness for the amended C6 at a concrete input: the slow-crash entry
(counter at its budget of 2, last incarnation 65 s) is rescheduled with
its counter reset to 1. -/
theorem stability_reset_fresh_incident_witness :
    (handleRestartsStep
      { pWeb with state := ProcessState.stopped, pid := 0, restarts := 2,
                  maxRestarts := 2,
                  lastUptime := 65000000000 }).scheduledDelay.isSome
        = true ∧
    (handleRestartsStep
      { pWeb with state := ProcessState.stopped, pid := 0, restarts := 2,
                  maxRestarts := 2,
                  lastUptime := 65000000000 }).proc.restarts = 1 :=
  stability_reset_fresh_incident.2.1
    { pWeb with state := ProcessState.stopped, pid := 0, restarts := 2,
                maxRestarts := 2, lastUptime := 65000000000 }
    (by decide) (by decide) (by decide) (by decide)

/-- Monotonicity of the truncated backoff delay in the restart counter,
for a nonnegative base delay and a backoff factor at least 1. -/
theorem backoffDelay_mono (base : Int) (f : ℚ) (r₁ r₂ : Int)
    (hbase : 0 ≤ base) (hf : 1 ≤ f) (hr : r₁ ≤ r₂) :
    backoffDelay base f r₁ ≤ backoffDelay base f r₂ := by
  have hf0 : (0 : ℚ) ≤ f := le_trans zero_le_one hf
  have hb : (0 : ℚ) ≤ (base : ℚ) := by exact_mod_cast hbase
  have hpow : f ^ (r₁ - 1).toNat ≤ f ^ (r₂ - 1).toNat :=
    pow_le_pow_right₀ hf (Int.toNat_le_toNat (by omega))
  have hmul : (base : ℚ) * f ^ (r₁ - 1).toNat ≤
      (base : ℚ) * f ^ (r₂ - 1).toNat :=
    mul_le_mul_of_nonneg_left hpow hb
  have h₁ : (0 : ℚ) ≤ (base : ℚ) * f ^ (r₁ - 1).toNat :=
    mul_nonneg hb (pow_nonneg hf0 _)
  have h₂ : (0 : ℚ) ≤ (base : ℚ) * f ^ (r₂ - 1).toNat :=
    mul_nonneg hb (pow_nonneg hf0 _)
  unfold backoffDelay truncQ
  rw [if_neg (not_lt.mpr h₁), if_neg (not_lt.mpr h₂)]
  exact Int.floor_le_floor hmul

/-- Claim C5: when the planner schedules a restart it first increments
`restarts` and then computes
`delay = base_restart_delay × backoff_factor^(restarts − 1)` from the new
counter; for any factor ≥ 1 and nonnegative base the delay is
non-decreasing in the counter (so consecutive delays within one incident
are non-decreasing); and for a 1-second base with factor 2.0 the delays at
counters 1–5 are exactly 1 s, 2 s, 4 s, 8 s and 16 s. -/
theorem backoff_increment_then_delay :
    (∀ p : Process, p.state = ProcessState.stopped →
      p.restarts < p.maxRestarts →
      ¬(StableAfter < p.lastUptime ∧ 0 < p.restarts) →
      (handleRestartsStep p).proc.restarts = p.restarts + 1 ∧
      (handleRestartsStep p).scheduledDelay =
        some (backoffDelay p.restartDelay p.backoffFactor
          (p.restarts + 1))) ∧
    (∀ (base : Int) (f : ℚ) (r₁ r₂ : Int), 0 ≤ base → 1 ≤ f → r₁ ≤ r₂ →
      backoffDelay base f r₁ ≤ backoffDelay base f r₂) ∧
    (backoffDelay 1000000000 2 1 = 1000000000 ∧
     backoffDelay 1000000000 2 2 = 2000000000 ∧
     backoffDelay 1000000000 2 3 = 4000000000 ∧
     backoffDelay 1000000000 2 4 = 8000000000 ∧
     backoffDelay 1000000000 2 5 = 16000000000) := by
  refine ⟨?_, backoffDelay_mono, ?_, ?_, ?_, ?_, ?_⟩
  · intro p hstate hlt hres
    simp [handleRestartsStep, stabilityReset, hres, hstate, hlt]
  · exact backoffDelay_eval _ _ _ _ 0 (by simp) (by norm_num)
  · exact backoffDelay_eval _ _ _ _ 1 (by simp) (by norm_num)
  · exact backoffDelay_eval _ _ _ _ 2 (by simp) (by norm_num)
  · exact backoffDelay_eval _ _ _ _ 3 (by simp) (by norm_num)
  · exact backoffDelay_eval _ _ _ _ 4 (by simp) (by norm_num)

/-- Witness for C5 at a concrete input: a freshly stopped entry with
counter 0 is scheduled with the delay for counter 1, and the counter-1
delay is at most the counter-5 delay. -/
theorem backoff_increment_then_delay_witness :
    (handleRestartsStep
      { pWeb with state := ProcessState.stopped, pid := 0,
                  maxRestarts := 5, lastUptime := 100 }).scheduledDelay
      = some (backoffDelay 1000000000 2 1) ∧
    backoffDelay 1000000000 2 1 ≤ backoffDelay 1000000000 2 5 :=
  ⟨(backoff_increment_then_delay.1
      { pWeb with state := ProcessState.stopped, pid := 0,
                  maxRestarts := 5, lastUptime := 100 }
      (by decide) (by decide) (by decide)).2,
   backoff_increment_then_delay.2.1 1000000000 2 1 5 (by decide) (by norm_num)
     (by decide)⟩

/-- Concrete shutdown environment: the single child (pid 1234) is still
alive at tick 0, dies and is reaped at tick 1. -/
def envShut : ShutdownEnv :=
  { reaps := fun t => if t = 1 then [(1234, 15)] else [],
    alive := fun t _ => t == 0,
    now := fun _ => 10000 }

/-- Counterexample to claim C4: in a concrete shutdown run the supervisor
issues exactly one SIGTERM with the negative (process-group) target and
one signal-0 liveness probe — and the probe's target is the bare positive
pid 1234, not `-1234`. -/
theorem liveness_probe_counterexample :
    (gracefulShutdown envShut [pWeb]).actions =
      [SysAction.kill (-1234) 15, SysAction.kill 1234 0] ∧
    SysAction.kill pWeb.pid 0 ∈ (gracefulShutdown envShut [pWeb]).actions ∧
    SysAction.kill (-pWeb.pid) 0 ∉
      (gracefulShutdown envShut [pWeb]).actions := by
  decide

/-- Claim C4 as amended: every signal sent through `Process.Signal`
(the SIGTERM phase, the SIGKILL escalation, and restarts-era signalling)
targets the negative pid, i.e. the process group; the signal-0 liveness
probe of the polite-termination phase, however, targets the bare positive
pid. -/
theorem signal_targets_process_group :
    (∀ (p : Process) (sig : Int), p.pid ≠ 0 →
      p.Signal sig = some (SysAction.kill (-p.pid) sig)) ∧
    (∀ pid : Int, livenessProbe pid = SysAction.kill pid 0) := by
  constructor
  · intro p sig hp
    simp [Process.Signal, hp]
  · intro pid
    rfl

/-- Witness for the amended C4 at a concrete input. -/
theorem signal_targets_process_group_witness :
    pWeb.Signal 15 = some (SysAction.kill (-pWeb.pid) 15) :=
  signal_targets_process_group.1 pWeb 15 (by decide)

/-- Predicate singling out directory removals among the supervisor's
observable actions; `Cgroup.Destroy` is the only producer of removals. -/
def notRemoveDir : SysAction → Bool
  | SysAction.removeDir _ => false
  | _ => true

/-- Whatever `Process.Signal` emits is a kill, never a directory
removal. -/
theorem signal_notRemoveDir (p : Process) (sig : Int) (a : SysAction)
    (h : p.Signal sig = some a) : notRemoveDir a = true := by
  rw [Process.Signal] at h
  split_ifs at h with hp
  injection h with h
  rw [← h]
  rfl

/-- Lists built by `filterMap` from a producer that only emits kills
contain no directory removal. -/
theorem filterMap_all_notRemoveDir {α : Type} (l : List α)
    (f : α → Option SysAction)
    (h : ∀ x a, f x = some a → notRemoveDir a = true) :
    (l.filterMap f).all notRemoveDir = true := by
  induction l with
  | nil => rfl
  | cons x xs ih =>
    rw [List.filterMap_cons]
    cases hfx : f x with
    | none => exact ih
    | some a =>
      rw [List.all_cons, h x a hfx, ih]
      rfl

/-- The reaper leaves every entry's cgroup handle in place. -/
theorem reapOne_cgroup (l : List Process) (pid : Int) (w : Nat)
    (now : Int) :
    (reapOne l pid w now).map Process.cgroup = l.map Process.cgroup := by
  induction l with
  | nil => rfl
  | cons p rest ih =>
    rw [reapOne]
    split_ifs with h
    · simp [(reapUpdate_fields p w now).2.2.2.2.2.2]
    · simp [ih]

/-- A whole `reapZombies` pass leaves every entry's cgroup handle in
place. -/
theorem reapZombiesAt_cgroup (env : ShutdownEnv) (t : Nat)
    (l : List Process) :
    (reapZombiesAt env t l).map Process.cgroup = l.map Process.cgroup := by
  rw [reapZombiesAt]
  generalize env.reaps t = rs
  induction rs generalizing l with
  | nil => rfl
  | cons r rs ih =>
    rw [List.foldl_cons, ih]
    exact reapOne_cgroup l r.1 r.2 (env.now t)

/-- The shutdown tick loop performs no cgroup teardown: it preserves every
entry's cgroup handle and appends only kill actions. -/
theorem shutdownTicks_no_teardown (env : ShutdownEnv) :
    ∀ (fuel t : Nat) (procs : List Process) (acts : List SysAction),
    ((shutdownTicks env fuel t procs acts).procs.map Process.cgroup =
      procs.map Process.cgroup) ∧
    ((shutdownTicks env fuel t procs acts).actions.all notRemoveDir =
      acts.all notRemoveDir) := by
  intro fuel
  induction fuel with
  | zero =>
    intro t procs acts
    refine ⟨reapZombiesAt_cgroup env t procs, ?_⟩
    rw [shutdownTicks, List.all_append]
    have hk : (procs.filterMap fun p =>
        if p.pid ≠ 0 then p.Signal 9 else none).all notRemoveDir = true := by
      refine filterMap_all_notRemoveDir procs _ fun x a hx => ?_
      split_ifs at hx
      exact signal_notRemoveDir x 9 a hx
    rw [hk, Bool.and_true]
  | succ fuel ih =>
    intro t procs acts
    have hprobes : ((reapZombiesAt env t procs).filterMap fun p =>
        if p.pid ≠ 0 then some (livenessProbe p.pid) else none).all
          notRemoveDir = true := by
      refine filterMap_all_notRemoveDir _ _ fun x a hx => ?_
      split_ifs at hx
      injection hx with hx
      rw [← hx]
      rfl
    rw [shutdownTicks]
    split_ifs with hdead
    · exact ⟨reapZombiesAt_cgroup env t procs,
        by rw [List.all_append, hprobes, Bool.and_true]⟩
    · have h := ih (t + 1) (reapZombiesAt env t procs)
        (acts ++ ((reapZombiesAt env t procs).filterMap fun p =>
          if p.pid ≠ 0 then some (livenessProbe p.pid) else none))
      refine ⟨?_, ?_⟩
      · rw [h.1, reapZombiesAt_cgroup env t procs]
      · rw [h.2, List.all_append, hprobes, Bool.and_true]

/-- Counterexample to claim C8: in a concrete shutdown run whose single
entry owns a cgroup handle and whose child is reaped, the run returns with
the handle still owned and with no directory removal among its actions —
the handle's directory is never removed, so the cgroup has not been torn
down when the shutdown procedure returns. -/
theorem cgroup_not_torn_down_counterexample :
    ((gracefulShutdown envShut [pWeb]).procs.map Process.pid = [0]) ∧
    ((gracefulShutdown envShut [pWeb]).procs.map Process.cgroup =
      [some { name := "web", path := "gosv/web" }]) ∧
    (Cgroup.Destroy { name := "web", path := "gosv/web" } =
      SysAction.removeDir "gosv/web") ∧
    SysAction.removeDir "gosv/web" ∉
      (gracefulShutdown envShut [pWeb]).actions := by
  decide

/-- Claim C8 as amended: the shutdown procedure performs no cgroup
teardown at all — in every run it leaves each entry's cgroup handle
exactly as it was and issues no directory removal (`Cgroup.Destroy` is
never invoked). -/
theorem gracefulShutdown_no_cgroup_teardown (env : ShutdownEnv)
    (procs : List Process) :
    ((gracefulShutdown env procs).procs.map Process.cgroup =
      procs.map Process.cgroup) ∧
    ((gracefulShutdown env procs).actions.all notRemoveDir = true) := by
  have hterm : (procs.filterMap fun p =>
      if p.state = ProcessState.running then p.Signal 15 else none).all
        notRemoveDir = true := by
    refine filterMap_all_notRemoveDir procs _ fun x a hx => ?_
    split_ifs at hx
    exact signal_notRemoveDir x 15 a hx
  have h := shutdownTicks_no_teardown env 100 0 procs
    (procs.filterMap fun p =>
      if p.state = ProcessState.running then p.Signal 15 else none)
  exact ⟨h.1, by rw [gracefulShutdown]; rw [h.2, hterm]⟩

/-- Initial state of the timer model: engine running, no pending restart
timers, no spawns during shutdown. -/
def timerInit : TimerState :=
  { phase := Phase.running, pending := [], spawnsDuringShutdown := [] }

/-- Counterexample to claim C2: the execution in which a restart timer for
entry `web` is scheduled, shutdown then begins, and the timer then fires,
is admitted by the code — and it spawns `web` after the instant shutdown
began, so pending restart timers are not cancelled on entry to
ShuttingDown. -/
theorem restart_timer_cancellation_counterexample :
    timerRun timerInit
      [TimerEvent.schedule "web", TimerEvent.enterShutdown,
       TimerEvent.fire "web"] =
      some { phase := Phase.shuttingDown, pending := [],
             spawnsDuringShutdown := ["web"] } := by
  decide

/-- Claim C2 as amended: entering ShuttingDown leaves the set of pending
restart timers untouched (the source keeps no handle to the sleeping
restart goroutines and cancels nothing), and a pending timer that fires
during shutdown still invokes the entry's spawn — so a new child can be
created during shutdown. -/
theorem restart_timers_not_cancelled :
    (∀ s : TimerState, s.phase = Phase.running →
      timerStep s TimerEvent.enterShutdown =
        some { s with phase := Phase.shuttingDown }) ∧
    (∀ (s : TimerState) (n : String), s.phase = Phase.shuttingDown →
      n ∈ s.pending →
      timerStep s (TimerEvent.fire n) =
        some { s with
          pending := s.pending.erase n,
          spawnsDuringShutdown := n :: s.spawnsDuringShutdown }) := by
  constructor
  · intro s hs
    simp [timerStep, hs]
  · intro s n hs hn
    simp [timerStep, hs, hn]

/-- Witness for the amended C2 at a concrete input: with one pending timer
for `web` and the engine already shutting down, the timer fires and the
spawn is recorded as happening during shutdown. -/
theorem restart_timers_not_cancelled_witness :
    timerStep
      { phase := Phase.shuttingDown, pending := ["web"],
        spawnsDuringShutdown := [] } (TimerEvent.fire "web") =
      some { phase := Phase.shuttingDown, pending := [],
             spawnsDuringShutdown := ["web"] } :=
  restart_timers_not_cancelled.2
    { phase := Phase.shuttingDown, pending := ["web"],
      spawnsDuringShutdown := [] } "web" rfl (by decide)

/-- Directory view in which `/proc/42` exists but none of its files can be
read (the process vanished between the `Stat` and the reads). -/
def dStatusGone : ProcDir :=
  { present := true, status := none, fdEntries := none, maps := none }

/-- Counterexample to claim C7: when the numeric directory exists but the
status file cannot be read, `ReadProcInfo` fails — the status sub-read
does not degrade to an empty record, and the call does not succeed even
though the directory exists. -/
theorem readProcInfo_counterexample :
    dStatusGone.present = true ∧
    ReadProcInfo 42 dStatusGone =
      Except.error ProcError.statusUnreadable :=
  ⟨rfl, rfl⟩

/-- Claim C7 as amended: `ReadProcInfo` fails with the not-found error
exactly when the numeric directory is missing; when the directory exists
it succeeds only if the status file is readable — a status read failure
fails the whole call — while fd-directory and maps sub-read failures
degrade to empty lists. -/
theorem readProcInfo_error_contract (pid : Int) (d : ProcDir) :
    (d.present = false → ReadProcInfo pid d = Except.error ProcError.notFound) ∧
    (d.present = true → d.status = none →
      ReadProcInfo pid d = Except.error ProcError.statusUnreadable) ∧
    (∀ s, d.present = true → d.status = some s →
      ReadProcInfo pid d =
        Except.ok { readStatus { pid := pid } s with
                    fds := readFDs d.fdEntries,
                    memoryMaps := readMaps d.maps } ∧
      (d.fdEntries = none → readFDs d.fdEntries = []) ∧
      (d.maps = none → readMaps d.maps = [])) := by
  refine ⟨?_, ?_, ?_⟩
  · intro h
    simp [ReadProcInfo, h]
  · intro h hs
    simp [ReadProcInfo, h, hs]
  · intro s h hs
    refine ⟨by simp [ReadProcInfo, h, hs], ?_, ?_⟩
    · intro hf
      simp [readFDs, hf]
    · intro hm
      simp [readMaps, hm]

/-- Witness for the amended C7 at concrete inputs: a missing directory
yields the not-found error. -/
theorem readProcInfo_error_contract_witness :
    ReadProcInfo 7
      { present := false, status := none, fdEntries := none, maps := none } =
      Except.error ProcError.notFound :=
  (readProcInfo_error_contract 7
    { present := false, status := none, fdEntries := none,
      maps := none }).1 rfl

end Gosv
